import Mathlib

/-!
# Verification of the `Web_Data_Spool` chunked extraction-and-export pipeline

Shallow embedding, in Lean 4, of the single source file `Web_Data_Spool.py`
(a Streamlit app that fetches rows from PostgreSQL in chunks and exports the
assembled table as CSV or Excel).  Pure computations (URL construction via
`quote_plus`, chunk assembly, CSV serialization, filename construction,
spreadsheet layout) are translated directly; the effectful parts
(`engine.connect`, `pd.read_sql_query`, Streamlit widgets) are embedded by
passing an explicit `World` oracle that decides how the database behaves and
recording the observable actions of a run as a list of `Event`s.
-/

namespace DataSpool

/-- Byte strings (e.g. the UTF-8 bytes of a connection URL or of a CSV file)
are modelled as lists of natural numbers; each element is one byte value. -/
abbrev Bytes := List Nat

/-- A cell value in its textual representation, as a list of characters. -/
abbrev Field := List Char

/-- A pandas `DataFrame` as the app observes it: an ordered column list and an
ordered list of rows, each row an ordered list of textual cell values.  This is
the spec's `ResultTable`. -/
structure Table where
  cols : List Field
  rows : List (List Field)
deriving DecidableEq, Repr

/-- A calendar date, as produced by `st.date_input`.  Python `datetime.date`
values compare lexicographically on (year, month, day). -/
structure Date where
  year : Nat
  month : Nat
  day : Nat
deriving DecidableEq, Repr

/-- Python `date` comparison `a < b`: lexicographic on (year, month, day). -/
def dateLt (a b : Date) : Bool :=
  decide (a.year < b.year ∨ (a.year = b.year ∧
    (a.month < b.month ∨ (a.month = b.month ∧ a.day < b.day))))

/-- The decimal digit character for a value below 10. -/
def digitChar (n : Nat) : Char := Char.ofNat (48 + n)

/-- Decimal rendering of a natural number, with an explicit recursion bound
(the number itself bounds the digit count comfortably). -/
def natToDecAux : Nat → Nat → List Char
  | 0, _ => []
  | Nat.succ fuel, n =>
    if n < 10 then [digitChar n]
    else natToDecAux fuel (n / 10) ++ [digitChar (n % 10)]

/-- Decimal rendering of a natural number as a string. -/
def natToDec (n : Nat) : String := String.mk (natToDecAux (n + 1) n)

/-- Zero-padded two-digit rendering, as `strftime` does for `%m` and `%d`. -/
def pad2 (n : Nat) : String :=
  if n < 10 then "0" ++ natToDec n else natToDec n

/-- Zero-padded four-digit rendering, as CPython `strftime` does for `%Y`. -/
def pad4 (n : Nat) : String :=
  if n < 10 then "000" ++ natToDec n
  else if n < 100 then "00" ++ natToDec n
  else if n < 1000 then "0" ++ natToDec n
  else natToDec n

/-- `date.strftime("%Y-%m-%d")` from `main` (lines 93-94 of the source). -/
def Date.fmt (d : Date) : String :=
  pad4 d.year ++ "-" ++ pad2 d.month ++ "-" ++ pad2 d.day

/-- The `db_params` dictionary (source lines 60-66): connection parameters.
All five components are modelled at byte level, since the password may contain
arbitrary bytes that `quote_plus` must encode. -/
structure DBParams where
  host : Bytes
  port : Bytes
  database : Bytes
  user : Bytes
  password : Bytes
deriving DecidableEq, Repr

/-! ## `quote_plus` and the connection URL (source lines 13-18)

`urllib.parse.quote_plus` on a byte: ASCII alphanumerics and `_.-~` are kept,
the space becomes `+`, and every other byte becomes `%XX` with uppercase hex
digits.  The URL is then built by an f-string that interpolates the user,
encoded password, host, port and database without further encoding. -/

/-- The bytes `quote`/`quote_plus` never encode: ASCII alphanumerics and
`_` (95), `.` (46), `-` (45), `~` (126). -/
def isAlwaysSafe (b : Nat) : Bool :=
  decide ((65 ≤ b ∧ b ≤ 90) ∨ (97 ≤ b ∧ b ≤ 122) ∨ (48 ≤ b ∧ b ≤ 57) ∨
    b = 95 ∨ b = 46 ∨ b = 45 ∨ b = 126)

/-- Uppercase hexadecimal digit for a value below 16 (`0`-`9`, `A`-`F`). -/
def hexDigit (n : Nat) : Nat :=
  if n < 10 then 48 + n else 55 + n

/-- `urllib.parse.quote_plus` on one byte: space (32) becomes `+` (43);
safe bytes pass through; all others become `%` plus two uppercase hex
digits. -/
def quotePlusByte (b : Nat) : Bytes :=
  if b = 32 then [43]
  else if isAlwaysSafe b then [b]
  else [37, hexDigit (b / 16), hexDigit (b % 16)]

/-- `urllib.parse.quote_plus` over the UTF-8 bytes of the password. -/
def quotePlus : Bytes → Bytes
  | [] => []
  | b :: bs => quotePlusByte b ++ quotePlus bs

/-- Recognizer for hexadecimal digit bytes (`0`-`9`, `A`-`F`, `a`-`f`). -/
def isHexDigit (b : Nat) : Bool :=
  decide ((48 ≤ b ∧ b ≤ 57) ∨ (65 ≤ b ∧ b ≤ 70) ∨ (97 ≤ b ∧ b ≤ 102))

/-- Value of a hexadecimal digit byte. -/
def hexVal (b : Nat) : Nat :=
  if b ≤ 57 then b - 48 else if b ≤ 70 then b - 55 else b - 87

/-- Standard URL percent-decoding (`urllib.parse.unquote`, which is what the
URL consumer applies to the userinfo components): `%XX` with two hex digits
decodes to one byte; every other byte — including `+` — passes through
unchanged. -/
def unquote : Bytes → Bytes
  | [] => []
  | [b] => [b]
  | [b1, b2] => [b1, b2]
  | b :: h1 :: h2 :: rest =>
    if b = 37 && isHexDigit h1 && isHexDigit h2 then
      (hexVal h1 * 16 + hexVal h2) :: unquote rest
    else b :: unquote (h1 :: h2 :: rest)

/-- The fixed scheme text of the f-string URL, as bytes. -/
def schemeBytes : Bytes := "postgresql+psycopg2://".data.map Char.toNat

/-- The connection URL built by `fetch_data_in_chunks` (source lines 16-18):
`postgresql+psycopg2://{user}:{quote_plus(password)}@{host}:{port}/{database}`.
Only the password is encoded; the other components are interpolated raw. -/
def buildUrl (p : DBParams) : Bytes :=
  schemeBytes ++ p.user ++ 58 :: quotePlus p.password ++ 64 :: p.host ++
    58 :: p.port ++ 47 :: p.database

/-- Drop an expected literal byte prefix, failing if it does not match. -/
def dropLiteral : Bytes → Bytes → Option Bytes
  | [], l => some l
  | _ :: _, [] => none
  | p :: ps, b :: bs => if p = b then dropLiteral ps bs else none

/-- The URL consumer's parse of an RFC-1738-style database URL: after the
scheme, the username runs to the first `:` (58), the password to the first `@`
(64), the host to the next `:`, the port to the next `/` (47), and the
database is the remainder; the components are then percent-decoded. -/
def parseUrl (u : Bytes) : Option (Bytes × Bytes × Bytes × Bytes × Bytes) :=
  match dropLiteral schemeBytes u with
  | none => none
  | some r1 =>
    let user := r1.takeWhile (fun b => b != 58 && b != 47)
    match r1.drop user.length with
    | 58 :: r2 =>
      let pw := r2.takeWhile (fun b => b != 64)
      match r2.drop pw.length with
      | 64 :: r3 =>
        let host := r3.takeWhile (fun b => b != 58 && b != 47)
        match r3.drop host.length with
        | 58 :: r4 =>
          let port := r4.takeWhile (fun b => b != 47)
          match r4.drop port.length with
          | 47 :: db =>
            some (unquote user, unquote pw, unquote host, unquote port,
              unquote db)
          | _ => none
        | _ => none
      | _ => none
    | _ => none

/-! ## Chunked retrieval and assembly (source lines 28-41)

`pd.read_sql_query(..., chunksize=c)` yields the matching rows as successive
frames of at most `c` rows, in order; the loop folds them into `data`, which
starts as the colum-less empty frame `pd.DataFrame()`, via
`pd.concat([data, chunk], ignore_index=True)`. -/

/-- Split a list into successive chunks of at most `c` elements, with an
explicit recursion bound (each round removes at least one element, so the
list length is an adequate bound). -/
def chunkListAux (c : Nat) : Nat → List α → List (List α)
  | 0, _ => []
  | Nat.succ fuel, l =>
    if l.isEmpty then []
    else if c = 0 then [l]
    else l.take c :: chunkListAux c fuel (l.drop c)

/-- Split a list into successive chunks of at most `c` elements.
(`c = 0` is not reachable from the app, which uses `chunk_size = 50000`;
the definition returns the list as a single chunk there.) -/
def chunkList (c : Nat) (l : List α) : List (List α) :=
  chunkListAux c l.length l

/-- `pd.DataFrame()`: the initial accumulator — no columns, no rows. -/
def emptyDF : Table := ⟨[], []⟩

/-- `pd.concat([a, b], ignore_index=True)` for frames with equal schemas
(or an initial column-less accumulator): the rows are appended in order and
the columns are taken from the first frame that has any. -/
def concatDF (a b : Table) : Table :=
  ⟨if a.cols.isEmpty then b.cols else a.cols, a.rows ++ b.rows⟩

/-- The successive chunk frames the driver yields for a result set `t`:
each carries the full column schema and at most `c` of the rows, in order.
An empty result set yields no chunks at all. -/
def chunkDFs (c : Nat) (t : Table) : List Table :=
  (chunkList c t.rows).map (fun rs => ⟨t.cols, rs⟩)

/-- The accumulation loop of `fetch_data_in_chunks` (lines 29-38):
fold the arriving chunks into `pd.DataFrame()` by concatenation. -/
def assembleChunks (c : Nat) (t : Table) : Table :=
  (chunkDFs c t).foldl concatDF emptyDF

/-! ## CSV serialization (source line 117)

`data.to_csv(index=False).encode('utf-8')`: the header row (the column names)
followed by one line per row, fields joined by commas, each line terminated by
a newline, minimal quoting (a field is quoted, with inner quotes doubled,
exactly when it contains the delimiter, the quote character, or a line-break
character), no index column, and the text encoded as UTF-8. -/

/-- A field must be quoted when it contains `,`, `"`, `\n` or `\r`
(csv `QUOTE_MINIMAL`). -/
def needsQuote (f : Field) : Bool :=
  f.any (fun c => c == ',' || c == '\"' || c == '\n' || c == '\r')

/-- Double every quote character, as csv quoting does inside a quoted field. -/
def escapeQuotes : Field → Field
  | [] => []
  | c :: rest =>
    if c = '\"' then '\"' :: '\"' :: escapeQuotes rest
    else c :: escapeQuotes rest

/-- Render one field with minimal quoting. -/
def encodeField (f : Field) : Field :=
  if needsQuote f then '\"' :: (escapeQuotes f ++ ['\"']) else f

/-- Render one record: its fields, comma-separated. -/
def encodeRow : List Field → Field
  | [] => []
  | [f] => encodeField f
  | f :: r => encodeField f ++ ',' :: encodeRow r

/-- Render a sequence of records, each followed by a newline. -/
def encodeLines : List (List Field) → List Char
  | [] => []
  | r :: rs => encodeRow r ++ '\n' :: encodeLines rs

/-- `DataFrame.to_csv(index=False)`: header line then one line per row. -/
def csvText (t : Table) : List Char := encodeLines (t.cols :: t.rows)

/-- UTF-8 encoding of one character (the standard 1-4 byte scheme). -/
def utf8EncodeChar (c : Char) : Bytes :=
  let n := c.toNat
  if n < 128 then [n]
  else if n < 2048 then [192 + n / 64, 128 + n % 64]
  else if n < 65536 then [224 + n / 4096, 128 + (n / 64) % 64, 128 + n % 64]
  else [240 + n / 262144, 128 + (n / 4096) % 64, 128 + (n / 64) % 64,
    128 + n % 64]

/-- UTF-8 encoding of a character sequence (`str.encode('utf-8')`). -/
def utf8Encode (s : List Char) : Bytes := (s.map utf8EncodeChar).flatten

/-- The byte buffer handed to the CSV download button (source line 117):
the UTF-8 bytes of `to_csv(index=False)` — with no compression applied. -/
def csvExportBytes (t : Table) : Bytes := utf8Encode (csvText t)

/-- The two magic bytes that open every gzip-compatible container
(`0x1f 0x8b`). -/
def gzipMagic : Bytes := [31, 139]

/-! A CSV reader, to state the round-trip property of §4.3 Contract B.
`parseQuoted` consumes the inside of a quoted field (after the opening
quote), decoding doubled quotes; `parseUnquoted` consumes a bare field up to
the next delimiter; `parseRecordAux` splits one line into fields; `parseCSVAux`
splits the text into records.  The record- and file-level functions carry a
fuel argument bounded by the input length, which suffices because every field
consumes its separator and every record its terminating newline. -/

/-- Consume a quoted field body; `""` decodes to one `"`; a single `"` closes
the field.  Returns the field content and the unconsumed remainder. -/
def parseQuoted : List Char → Field × List Char
  | [] => ([], [])
  | [c] => if c = '\"' then ([], []) else ([c], [])
  | c1 :: c2 :: rest =>
    if c1 = '\"' then
      if c2 = '\"' then
        let p := parseQuoted rest
        ('\"' :: p.1, p.2)
      else ([], c2 :: rest)
    else
      let p := parseQuoted (c2 :: rest)
      (c1 :: p.1, p.2)

/-- Consume an unquoted field: everything up to the next `,` or newline. -/
def parseUnquoted : List Char → Field × List Char
  | [] => ([], [])
  | c :: rest =>
    if c = ',' ∨ c = '\n' then ([], c :: rest)
    else
      let p := parseUnquoted rest
      (c :: p.1, p.2)

/-- Consume one field, quoted or not: an opening quote starts a quoted
field, anything else an unquoted one. -/
def parseField : List Char → Field × List Char
  | [] => ([], [])
  | c :: rest =>
    if c = '\"' then parseQuoted rest else parseUnquoted (c :: rest)

/-- Consume one record (one line): fields separated by commas, ended by a
newline (or any other non-comma stop character, or the end of input). -/
def parseRecordAux : Nat → List Char → List Field × List Char
  | 0, l => ([], l)
  | Nat.succ fuel, l =>
    let p := parseField l
    match p.2 with
    | [] => ([p.1], [])
    | c :: rest =>
      if c = ',' then
        let q := parseRecordAux fuel rest
        (p.1 :: q.1, q.2)
      else ([p.1], rest)

/-- Consume one record with adequate fuel (each field uses one fuel unit and
consumes at least its separator, so the input length suffices). -/
def parseRecord (l : List Char) : List Field × List Char :=
  parseRecordAux l.length l

/-- Split a CSV text into its records. -/
def parseCSVAux : Nat → List Char → List (List Field)
  | 0, _ => []
  | Nat.succ fuel, l =>
    match l with
    | [] => []
    | c :: rest =>
      let p := parseRecord (c :: rest)
      p.1 :: parseCSVAux fuel p.2

/-- Parse a CSV text into records (each record consumes at least its newline,
so the input length is adequate fuel). -/
def parseCSV (l : List Char) : List (List Field) := parseCSVAux l.length l

/-! ## Spreadsheet export (source lines 47-51)

`to_excel` writes the frame through `pd.ExcelWriter` with `index=False` and
`sheet_name='Data'` into a single-sheet workbook. -/

/-- One spreadsheet sheet: its name and its cell grid, row-major. -/
structure Sheet where
  name : String
  grid : List (List Field)
deriving DecidableEq, Repr

/-- A workbook: an ordered list of sheets. -/
structure Workbook where
  sheets : List Sheet
deriving DecidableEq, Repr

/-- The cell grid `DataFrame.to_excel` writes: with `index=True` a leading
index column (blank header cell, then the 0-based positional index rendered
as text) is prepended; with `index=False` the grid is exactly the header row
followed by the data rows. -/
def dfToGrid (withIndex : Bool) (t : Table) : List (List Field) :=
  if withIndex then
    ([] :: t.cols) ::
      (((List.range t.rows.length).zip t.rows).map
        (fun p => (toString p.1).data :: p.2))
  else
    t.cols :: t.rows

/-- `to_excel` (source lines 47-51): one sheet named `Data`, written with
`index=False`. -/
def to_excel (t : Table) : Workbook :=
  ⟨[⟨"Data", dfToGrid false t⟩]⟩

/-! ## The effectful app (source lines 10-44 and 54-135)

The database and the Streamlit runtime are embedded as an explicit oracle
(`World`) deciding how `engine.connect()` and `pd.read_sql_query` behave, and
a run is summarized by the ordered list of observable `Event`s it performs. -/

/-- How the one query of a fetch turns out: either the full result set
arrives as chunks, or an exception is raised after `k` chunks have already
been delivered (the message is the stringified exception). -/
inductive QueryOutcome where
  | ok (t : Table)
  | failAfter (t : Table) (k : Nat) (msg : String)
deriving DecidableEq, Repr

/-- The database oracle for one run: `connect = some msg` means
`engine.connect()` raises with that message; `none` means it succeeds. -/
structure World where
  connect : Option String
  queryResult : QueryOutcome
deriving DecidableEq, Repr

/-- The observable actions of a run, in order. -/
inductive Event where
  | stError (msg : String)
  | stWarning (msg : String)
  | stInfo (msg : String)
  | stSuccess (msg : String)
  | keyErrorCrash (key : String)
  | connOpened (url : Bytes)
  | queryIssued (tableName startS endS : String)
  | connClosed
  | downloadCsv (fileName mime : String) (data : Bytes)
  | downloadExcel (fileName mime : String) (data : Workbook)
deriving DecidableEq, Repr

/-- `fetch_data_in_chunks` (source lines 10-44).  Inside one `try`: build the
URL (encoding only the password), open one connection, issue the one
parameterized query, fold the arriving chunks into an initially empty frame,
close the connection and return the frame.  On any exception the handler
shows `st.error(f"Error fetching data: {e}")` and returns `None` — note that
the handler does not close the connection.  The returned pair is
(the Python return value, the events of the call). -/
def fetch_data_in_chunks (startS endS tableName : String) (db : DBParams)
    (w : World) (chunk_size : Nat := 50000) : Option Table × List Event :=
  let url := buildUrl db
  match w.connect with
  | some msg => (none, [.stError ("Error fetching data: " ++ msg)])
  | none =>
    match w.queryResult with
    | .failAfter _ _ msg =>
      (none, [.connOpened url, .queryIssued tableName startS endS,
        .stError ("Error fetching data: " ++ msg)])
    | .ok t =>
      (some (assembleChunks chunk_size t),
        [.connOpened url, .queryIssued tableName startS endS, .connClosed])

/-- The fixed friendly-name-to-identifier mapping (source lines 72-80). -/
def table_mapping : List (String × String) :=
  [("Deposit", "data_spool.b2c_collections"),
   ("Withdrawals", "data_spool.b2c_payouts"),
   ("Trongrid", "data_spool.trongrid"),
   ("OKX Data", "data_spool.okx_data"),
   ("App Transactions", "data_spool.in_app_transactions"),
   ("Nobblet for Finance", "data_spool.nobblet_finance"),
   ("Bitnob for Nobblet", "data_spool.nobblet_bitnob_records")]

/-- `table_mapping[selected_table]` (source line 85): a dictionary lookup;
`none` corresponds to the `KeyError` an unmapped key would raise. -/
def lookupTable (s : String) : Option String :=
  table_mapping.lookup s

/-- `selected_table.replace(' ', '_').lower()` (source lines 121 and 131):
spaces become underscores, ASCII letters are lowercased (character by
character, which is what both Python methods do on these inputs). -/
def exportFileBase (s : String) : String :=
  String.mk (s.data.map (fun c => Char.toLower (if c = ' ' then '_' else c)))

/-- The user-facing inputs of one run: the selected friendly table name, the
two dates, and whether the `Fetch Data` button was pressed. -/
structure UIInput where
  selection : String
  startDate : Date
  endDate : Date
  fetchClicked : Bool
deriving DecidableEq, Repr

/-- `data is not None and not data.empty` is false exactly when the frame is
`None` or has no rows or no columns (`DataFrame.empty` is true when any axis
has length zero). -/
def dfNonEmpty : Option Table → Bool
  | none => false
  | some t => !t.rows.isEmpty && !t.cols.isEmpty

/-- `main` (source lines 54-135), as the event list of one run.  The secrets
lookup is abstracted as an optional `DBParams` (a missing key shows an error
and stops).  Then: resolve the friendly name through `table_mapping` (line
85 — a `KeyError` crash if absent), format the dates, reject `start > end`
before anything else runs (lines 96-98), and on a button press fetch and —
only when the frame is non-`None` and non-empty — offer the two downloads
(lines 101-135). -/
def main (secrets : Option DBParams) (ui : UIInput) (w : World) :
    List Event :=
  match secrets with
  | none => [.stError "Missing key in secrets"]
  | some db =>
    match lookupTable ui.selection with
    | none => [.keyErrorCrash ui.selection]
    | some tableName =>
      let startS := ui.startDate.fmt
      let endS := ui.endDate.fmt
      if dateLt ui.endDate ui.startDate then
        [.stError "Start date cannot be after end date!"]
      else if ui.fetchClicked then
        let fr := fetch_data_in_chunks startS endS tableName db w
        .stInfo ("Fetching data from table: " ++ ui.selection ++ "...") ::
          fr.2 ++
          (if dfNonEmpty fr.1 then
            match fr.1 with
            | some t =>
              [.stSuccess "Data fetched successfully!",
               .downloadCsv (exportFileBase ui.selection ++ "_data_export.csv")
                 "text/csv" (csvExportBytes t),
               .downloadExcel
                 (exportFileBase ui.selection ++ "_data_export.xlsx")
                 "application/vnd.openxmlformats-officedocument.spreadsheetml.sheet"
                 (to_excel t)]
            | none => []
          else
            [.stWarning "No data found for the specified date range or table!"])
      else []

/-- Modelled from the spec (§6): the suggested CSV filename the spec
prescribes, used only to compare the code's filenames against the spec's —
the spec names `{selection}_{start_date}_to_{end_date}` with a `.csv.gz`
suffix and `YYYY-MM-DD` dates. -/
def specCsvName (sel : String) (s e : Date) : String :=
  sel ++ "_" ++ s.fmt ++ "_to_" ++ e.fmt ++ ".csv.gz"

/-- Modelled from the spec (§6): the suggested spreadsheet filename the spec
prescribes (`{selection}_{start_date}_to_{end_date}.xlsx`). -/
def specXlsxName (sel : String) (s e : Date) : String :=
  sel ++ "_" ++ s.fmt ++ "_to_" ++ e.fmt ++ ".xlsx"

/-- Event classifier: is this the opening of a database connection? -/
def isOpenEvt : Event → Bool
  | .connOpened _ => true
  | _ => false

/-- Event classifier: is this the closing of a database connection? -/
def isCloseEvt : Event → Bool
  | .connClosed => true
  | _ => false

/-- Event classifier: is this the issuing of a query? -/
def isQueryEvt : Event → Bool
  | .queryIssued _ _ _ => true
  | _ => false

/-- Event classifier: is this one of the two download offers? -/
def isDownloadEvt : Event → Bool
  | .downloadCsv _ _ _ => true
  | .downloadExcel _ _ _ => true
  | _ => false

/-! ## Claim statements under test

Each `claim...` proposition below formalizes one spec claim exactly as the
spec states it, so that a failing claim can be refuted at a concrete input. -/

/-- Projection: the suggested filename of a CSV download event, if any. -/
def csvNameOf : Event → Option String
  | .downloadCsv n _ _ => some n
  | _ => none

/-- Projection: the suggested filename of a spreadsheet download event. -/
def xlsxNameOf : Event → Option String
  | .downloadExcel n _ _ => some n
  | _ => none

/-- A world in which connecting or querying fails. -/
def fetchFails (w : World) : Prop :=
  w.connect ≠ none ∨ ∃ t k msg, w.queryResult = .failAfter t k msg

/-- C2 as stated: on any connectivity or query failure the fetch reports the
failure to its caller as a distinct condition and never hands the caller the
generic null result — i.e. the returned value is never `None`. -/
def claimFailureNotSwallowed : Prop :=
  ∀ (startS endS tableName : String) (db : DBParams) (w : World) (c : Nat),
    fetchFails w →
    (fetch_data_in_chunks startS endS tableName db w c).1 ≠ none

/-- C3 as stated: every fetch opens exactly one connection and releases it on
every exit path, so the trace always closes as many connections as it
opens. -/
def claimConnAlwaysReleased : Prop :=
  ∀ (startS endS tableName : String) (db : DBParams) (w : World) (c : Nat),
    (fetch_data_in_chunks startS endS tableName db w c).2.countP isOpenEvt
        = 1 ∧
    (fetch_data_in_chunks startS endS tableName db w c).2.countP isCloseEvt
        = (fetch_data_in_chunks startS endS tableName db w c).2.countP
          isOpenEvt

/-- C6 as stated (the container half): the CSV export buffer is wrapped in a
gzip-compatible container, so it must begin with the two gzip magic bytes. -/
def claimCsvExportGzipped : Prop :=
  ∀ t : Table, t.cols ≠ [] → (csvExportBytes t).take 2 = gzipMagic

/-- C8 as stated: a fetch whose date range matches zero rows still yields
header-only spreadsheet and CSV exports (a download event) rather than just
an error or warning. -/
def claimEmptyFetchStillExports : Prop :=
  ∀ (db : DBParams) (ui : UIInput) (w : World) (tableName : String)
    (cols : List Field),
    lookupTable ui.selection = some tableName →
    dateLt ui.endDate ui.startDate = false →
    ui.fetchClicked = true →
    w.connect = none →
    w.queryResult = .ok ⟨cols, []⟩ →
    ∃ e ∈ main (some db) ui w, isDownloadEvt e = true

/-- C9 as stated: every export run suggests the spec's
`{selection}_{start}_to_{end}` filenames with `.xlsx` and `.csv.gz`
suffixes. -/
def claimSpecFilenames : Prop :=
  ∀ (db : DBParams) (ui : UIInput) (w : World) (tableName : String)
    (t : Table),
    lookupTable ui.selection = some tableName →
    dateLt ui.endDate ui.startDate = false →
    ui.fetchClicked = true →
    w.connect = none →
    w.queryResult = .ok t →
    t.rows ≠ [] → t.cols ≠ [] →
    (∃ e ∈ main (some db) ui w,
      csvNameOf e = some (specCsvName ui.selection ui.startDate ui.endDate)) ∧
    (∃ e ∈ main (some db) ui w,
      xlsxNameOf e = some (specXlsxName ui.selection ui.startDate ui.endDate))

/-- A byte string free of the URL delimiters `:` `/` `@` and of the escape
lead `%`, so it survives raw interpolation and percent-decoding. -/
def UrlPlain (l : Bytes) : Prop :=
  ∀ b ∈ l, b ≠ 58 ∧ b ≠ 47 ∧ b ≠ 64 ∧ b ≠ 37

instance (l : Bytes) : Decidable (UrlPlain l) :=
  inferInstanceAs (Decidable (∀ b ∈ l, b ≠ 58 ∧ b ≠ 47 ∧ b ≠ 64 ∧ b ≠ 37))

/-- C10 as stated: for ANY password — the other components being plain —
the parsed URL components equal the supplied parameters. -/
def claimUrlComponentsRecovered : Prop :=
  ∀ p : DBParams, UrlPlain p.user → UrlPlain p.host → UrlPlain p.port →
    (∀ b ∈ p.database, b ≠ 37) →
    (∀ b ∈ p.password, b < 256) →
    parseUrl (buildUrl p) =
      some (p.user, p.password, p.host, p.port, p.database)

/-! ## Lemmas about chunked assembly -/

/-- The fuel of `chunkListAux` is irrelevant above the list length. -/
theorem chunkListAux_fuel (c : Nat) :
    ∀ (f1 : Nat), ∀ (f2 : Nat) (l : List α), l.length ≤ f1 →
      l.length ≤ f2 → chunkListAux c f1 l = chunkListAux c f2 l := by
  intro f1
  induction f1 with
  | zero =>
    intro f2 l h1 _
    have : l = [] := List.eq_nil_of_length_eq_zero (Nat.le_zero.mp h1)
    subst this
    cases f2 <;> simp [chunkListAux]
  | succ f1 ih =>
    intro f2 l h1 h2
    by_cases hl : l = []
    · subst hl
      cases f2 <;> simp [chunkListAux]
    · have hlen : 0 < l.length := List.length_pos.mpr hl
      cases f2 with
      | zero => omega
      | succ f2 =>
        simp only [chunkListAux, List.isEmpty_iff, hl, if_false]
        by_cases hc : c = 0
        · simp [hc]
        · have hdrop1 : (l.drop c).length ≤ f1 := by
            simp only [List.length_drop]
            omega
          have hdrop2 : (l.drop c).length ≤ f2 := by
            simp only [List.length_drop]
            omega
          simp [hc, ih f2 (l.drop c) hdrop1 hdrop2]

/-- Chunking the empty row list yields no chunks. -/
theorem chunkList_nil (c : Nat) : chunkList c ([] : List α) = [] := rfl

/-- Chunking a non-empty list with a positive chunk size peels off the first
`c` elements. -/
theorem chunkList_cons (c : Nat) (hc : 0 < c) (l : List α) (hl : l ≠ []) :
    chunkList c l = l.take c :: chunkList c (l.drop c) := by
  unfold chunkList
  have hlen : 0 < l.length := List.length_pos.mpr hl
  cases hL : l.length with
  | zero => omega
  | succ n =>
    simp only [chunkListAux, List.isEmpty_iff, hl, if_false,
      Nat.pos_iff_ne_zero.mp hc, if_false]
    have : (l.drop c).length ≤ n := by
      simp only [List.length_drop]
      omega
    simp [chunkListAux_fuel c n (l.drop c).length (l.drop c) this
      (Nat.le_refl _)]

/-- Concatenating the chunks back together recovers the original list. -/
theorem chunkList_flatten_aux (c : Nat) (hc : 0 < c) :
    ∀ (n : Nat) (l : List α), l.length ≤ n →
      (chunkList c l).flatten = l := by
  intro n
  induction n with
  | zero =>
    intro l hl
    have : l = [] := List.eq_nil_of_length_eq_zero (Nat.le_zero.mp hl)
    subst this
    simp [chunkList_nil]
  | succ n ih =>
    intro l hl
    by_cases h : l = []
    · subst h
      simp [chunkList_nil]
    · rw [chunkList_cons c hc l h]
      have hlen : 0 < l.length := List.length_pos.mpr h
      have hdrop : (l.drop c).length ≤ n := by
        simp only [List.length_drop]
        omega
      simp only [List.flatten_cons, ih (l.drop c) hdrop,
        List.take_append_drop]

/-- Concatenating the chunks of a positive chunk size recovers the list. -/
theorem chunkList_flatten (c : Nat) (hc : 0 < c) (l : List α) :
    (chunkList c l).flatten = l :=
  chunkList_flatten_aux c hc l.length l (Nat.le_refl _)

/-- Folding chunk frames that all carry the same schema into an accumulator
appends their rows in order; the resulting schema is the accumulator's, or
the chunks' when the accumulator has none and a chunk arrives. -/
theorem foldl_concatDF (cols : List Field) :
    ∀ (rls : List (List (List Field))) (acc : Table),
      (rls.map (fun rs => Table.mk cols rs)).foldl concatDF acc =
        ⟨if rls.isEmpty then acc.cols
          else if acc.cols.isEmpty then cols else acc.cols,
         acc.rows ++ rls.flatten⟩ := by
  intro rls
  induction rls with
  | nil => intro acc; simp
  | cons rs rest ih =>
    intro acc
    simp only [List.map_cons, List.foldl_cons, ih, concatDF, List.isEmpty_cons,
      List.flatten_cons]
    by_cases hrest : rest.isEmpty
    · by_cases hacc : acc.cols.isEmpty <;>
        simp [hrest, hacc, List.append_assoc]
    · by_cases hacc : acc.cols.isEmpty
      · by_cases hcols : cols.isEmpty <;>
          simp [hrest, hacc, hcols, List.append_assoc]
      · simp [hrest, hacc, List.append_assoc]

/-- Characterization of the accumulation loop: with a positive chunk size the
assembled frame is the full result set — except that an empty result set
leaves the initial column-less `pd.DataFrame()` (zero chunks arrive, so the
schema is never learned; the spec documents this as a known limitation). -/
theorem assembleChunks_eq (c : Nat) (hc : 0 < c) (t : Table) :
    assembleChunks c t = if t.rows.isEmpty then emptyDF else t := by
  unfold assembleChunks chunkDFs
  rw [foldl_concatDF t.cols (chunkList c t.rows) emptyDF]
  by_cases h : t.rows = []
  · simp [h, chunkList_nil, emptyDF]
  · have hne : chunkList c t.rows ≠ [] := by
      rw [chunkList_cons c hc t.rows h]
      exact List.cons_ne_nil _ _
    simp only [List.isEmpty_iff, hne, if_false, emptyDF, h,
      chunkList_flatten c hc]
    simp [h]

/-- C5 theorem: the ResultTable a fetch returns does not depend on the chunk
size: for any two positive chunk sizes and the same query and row source, the
assembled results agree in row order, column order and every value. -/
theorem fetch_chunk_size_irrelevant (startS endS tableName : String)
    (db : DBParams) (w : World) (c1 c2 : Nat)
    (h1 : 0 < c1) (h2 : 0 < c2) (hne : c1 ≠ c2) :
    (fetch_data_in_chunks startS endS tableName db w c1).1 =
      (fetch_data_in_chunks startS endS tableName db w c2).1 := by
  unfold fetch_data_in_chunks
  cases w.connect with
  | some msg => rfl
  | none =>
    cases hq : w.queryResult with
    | failAfter t k msg => rfl
    | ok t =>
      simp only [assembleChunks_eq c1 h1 t, assembleChunks_eq c2 h2 t]

/-- Witness for the C5 theorem at chunk sizes 2 and 3 on a five-row result. -/
theorem fetch_chunk_size_irrelevant_witness :
    (fetch_data_in_chunks "2024-01-01" "2024-01-31" "data_spool.b2c_collections"
        ⟨[104], [49], [100], [117], [112]⟩
        ⟨none, .ok ⟨[['a']], [[['1']], [['2']], [['3']], [['4']], [['5']]]⟩⟩
        2).1 =
      (fetch_data_in_chunks "2024-01-01" "2024-01-31"
        "data_spool.b2c_collections"
        ⟨[104], [49], [100], [117], [112]⟩
        ⟨none, .ok ⟨[['a']], [[['1']], [['2']], [['3']], [['4']], [['5']]]⟩⟩
        3).1 :=
  fetch_chunk_size_irrelevant "2024-01-01" "2024-01-31"
    "data_spool.b2c_collections" ⟨[104], [49], [100], [117], [112]⟩
    ⟨none, .ok ⟨[['a']], [[['1']], [['2']], [['3']], [['4']], [['5']]]⟩⟩
    2 3 (by decide) (by decide) (by decide)

/-! ## Lemmas about CSV serialization and parsing -/

/-- Unfolding `needsQuote` over a cons cell. -/
theorem needsQuote_cons (c : Char) (f : Field) :
    needsQuote (c :: f) =
      ((c == ',' || c == '\"' || c == '\n' || c == '\x0d') || needsQuote f) := by
  simp [needsQuote]

/-- Reading a quoted field body undoes quote-doubling: after the escaped
content and the closing quote, parsing resumes exactly at the delimiter. -/
theorem parseQuoted_escape (f : Field) :
    ∀ (d : Char) (rest : List Char), d ≠ '\"' →
      parseQuoted (escapeQuotes f ++ '\"' :: d :: rest) = (f, d :: rest) := by
  induction f with
  | nil =>
    intro d rest hd
    simp [escapeQuotes, parseQuoted, hd]
  | cons c f ih =>
    intro d rest hd
    by_cases hc : c = '\"'
    · subst hc
      simp only [escapeQuotes, if_pos rfl, List.cons_append]
      simp [parseQuoted, ih d rest hd]
    · simp only [escapeQuotes, if_neg hc, List.cons_append]
      have hne : escapeQuotes f ++ '\"' :: d :: rest ≠ [] := by
        cases hE : escapeQuotes f <;> simp [hE]
      cases hE : escapeQuotes f ++ '\"' :: d :: rest with
      | nil => exact absurd hE hne
      | cons e es =>
        have := ih d rest hd
        rw [hE] at this
        simp [parseQuoted, hc, this]

/-- Reading an unquoted field stops exactly at the delimiter. -/
theorem parseUnquoted_plain (f : Field) :
    ∀ (d : Char) (rest : List Char), needsQuote f = false →
      (d = ',' ∨ d = '\n') →
      parseUnquoted (f ++ d :: rest) = (f, d :: rest) := by
  induction f with
  | nil =>
    intro d rest _ hd
    simp [parseUnquoted, hd]
  | cons c f ih =>
    intro d rest hq hd
    rw [needsQuote_cons, Bool.or_eq_false_iff] at hq
    obtain ⟨hc, hf⟩ := hq
    simp only [Bool.or_eq_false_iff, beq_eq_false_iff_ne, ne_eq] at hc
    have hcn : ¬(c = ',' ∨ c = '\n') := by tauto
    simp [parseUnquoted, hcn, ih d rest hf hd]

/-- Reading back one minimally-quoted field recovers it exactly. -/
theorem parseField_encode (f : Field) (d : Char) (rest : List Char)
    (hd : d = ',' ∨ d = '\n') :
    parseField (encodeField f ++ d :: rest) = (f, d :: rest) := by
  have hdq : d ≠ '\"' := by rcases hd with h | h <;> subst h <;> decide
  by_cases hq : needsQuote f
  · simp only [encodeField, if_pos hq, List.cons_append, List.append_assoc,
      List.singleton_append]
    simp [parseField, parseQuoted_escape f d rest hdq]
  · have hnq : needsQuote f = false := by simpa using hq
    simp only [encodeField, if_neg hq]
    cases hf : f with
    | nil =>
      simp [parseField, hdq, parseUnquoted, hd]
    | cons c cs =>
      have hc : c ≠ '\"' := by
        subst hf
        rw [needsQuote_cons, Bool.or_eq_false_iff] at hnq
        obtain ⟨h1, _⟩ := hnq
        simp only [Bool.or_eq_false_iff, beq_eq_false_iff_ne, ne_eq] at h1
        tauto
      have := parseUnquoted_plain f d rest hnq hd
      rw [hf] at this
      simp only [List.cons_append] at this ⊢
      simp [parseField, hc, this]

/-- A rendered record is at most one character shorter than its field count
(every field beyond the first brings its comma). -/
theorem encodeRow_length_ge (r : List Field) (hr : r ≠ []) :
    r.length ≤ (encodeRow r).length + 1 := by
  induction r with
  | nil => exact absurd rfl hr
  | cons f r ih =>
    cases r with
    | nil => simp [encodeRow]
    | cons g r2 =>
      have := ih (List.cons_ne_nil g r2)
      simp only [encodeRow, List.length_cons, List.length_append] at this ⊢
      omega

/-- Reading back one rendered line recovers the record and leaves exactly
the following text, for any fuel of at least the field count. -/
theorem parseRecordAux_encode (r : List Field) :
    ∀ (fuel : Nat) (rest : List Char), r ≠ [] → r.length ≤ fuel →
      parseRecordAux fuel (encodeRow r ++ '\n' :: rest) = (r, rest) := by
  induction r with
  | nil => intro fuel rest hr; exact absurd rfl hr
  | cons f r ih =>
    intro fuel rest _ hfuel
    cases fuel with
    | zero => simp at hfuel
    | succ fuel =>
      cases r with
      | nil =>
        simp only [encodeRow]
        simp [parseRecordAux, parseField_encode f '\n' rest (Or.inr rfl)]
      | cons g r2 =>
        simp only [encodeRow, List.cons_append, List.append_assoc,
          List.cons_append]
        have hfe := parseField_encode f ','
          (encodeRow (g :: r2) ++ '\n' :: rest) (Or.inl rfl)
        have hrec := ih fuel rest (List.cons_ne_nil g r2) (by
          simp only [List.length_cons] at hfuel ⊢
          omega)
        simp [parseRecordAux, hfe, hrec]

/-- Each rendered record contributes at least its newline, so the text is at
least as long as the record count. -/
theorem encodeLines_length_ge (recs : List (List Field)) :
    recs.length ≤ (encodeLines recs).length := by
  induction recs with
  | nil => simp [encodeLines]
  | cons r rs ih =>
    simp only [encodeLines, List.length_cons, List.length_append,
      List.length_cons]
    omega

/-- Reading back a rendered sequence of non-empty records recovers it, for
any fuel of at least the record count. -/
theorem parseCSVAux_encode (recs : List (List Field)) :
    ∀ (fuel : Nat), (∀ r ∈ recs, r ≠ []) → recs.length ≤ fuel →
      parseCSVAux fuel (encodeLines recs) = recs := by
  induction recs with
  | nil =>
    intro fuel _ _
    cases fuel <;> simp [encodeLines, parseCSVAux]
  | cons r rs ih =>
    intro fuel hne hfuel
    cases fuel with
    | zero => simp at hfuel
    | succ fuel =>
      have hr : r ≠ [] := hne r (List.mem_cons_self r rs)
      have hlen : r.length ≤ (encodeRow r ++ '\n' :: encodeLines rs).length := by
        have h1 := encodeRow_length_ge r hr
        simp only [List.length_append, List.length_cons]
        omega
      have hrec : parseRecord (encodeRow r ++ '\n' :: encodeLines rs) =
          (r, encodeLines rs) := by
        unfold parseRecord
        exact parseRecordAux_encode r _ (encodeLines rs) hr hlen
      have hrs : parseCSVAux fuel (encodeLines rs) = rs :=
        ih fuel (fun x hx => hne x (List.mem_cons_of_mem r hx)) (by
          simp only [List.length_cons] at hfuel
          omega)
      cases hE : encodeRow r ++ '\n' :: encodeLines rs with
      | nil =>
        have : (encodeRow r ++ '\n' :: encodeLines rs) ≠ [] := by
          cases h2 : encodeRow r <;> simp [h2]
        exact absurd hE this
      | cons e es =>
        rw [hE] at hrec
        simp only [encodeLines, hE, parseCSVAux, hrec, hrs]

/-- Round trip of the (uncompressed) CSV text: parsing the rendered text
recovers the header and every row, in order, whenever the table has at least
one column and no degenerate zero-field row. -/
theorem parseCSV_csvText (t : Table) (hc : t.cols ≠ [])
    (hr : ∀ r ∈ t.rows, r ≠ []) :
    parseCSV (csvText t) = t.cols :: t.rows := by
  unfold parseCSV csvText
  apply parseCSVAux_encode
  · intro r hmem
    rcases List.mem_cons.mp hmem with h | h
    · exact h ▸ hc
    · exact hr r h
  · exact encodeLines_length_ge (t.cols :: t.rows)

/-! ## C1 and C4: validation failures happen before any I/O -/

/-- C1 theorem: whenever the caller-supplied start date is strictly after the
end date, the run stops with exactly the range error — before the fetch — so
no connection is opened and no query is issued. -/
theorem range_error_rejected_before_io (db : DBParams) (ui : UIInput)
    (w : World) (tableName : String)
    (hsel : lookupTable ui.selection = some tableName)
    (hlt : dateLt ui.endDate ui.startDate = true) :
    main (some db) ui w = [.stError "Start date cannot be after end date!"] ∧
    ∀ e ∈ main (some db) ui w, isOpenEvt e = false ∧ isQueryEvt e = false := by
  have hmain : main (some db) ui w =
      [.stError "Start date cannot be after end date!"] := by
    unfold main
    rw [hsel]
    simp [hlt]
  refine ⟨hmain, ?_⟩
  intro e he
  rw [hmain] at he
  rcases List.mem_singleton.mp he with rfl
  exact ⟨rfl, rfl⟩

/-- Witness for the C1 theorem: a concrete run with start 2024-02-01 after
end 2024-01-31 produces only the range error and no I/O events. -/
theorem range_error_rejected_before_io_witness :
    main (some ⟨[104], [49], [100], [117], [112]⟩)
        ⟨"Deposit", ⟨2024, 2, 1⟩, ⟨2024, 1, 31⟩, true⟩
        ⟨none, .ok ⟨[['a']], [[['x']]]⟩⟩ =
      [.stError "Start date cannot be after end date!"] ∧
    ∀ e ∈ main (some ⟨[104], [49], [100], [117], [112]⟩)
        ⟨"Deposit", ⟨2024, 2, 1⟩, ⟨2024, 1, 31⟩, true⟩
        ⟨none, .ok ⟨[['a']], [[['x']]]⟩⟩,
      isOpenEvt e = false ∧ isQueryEvt e = false :=
  range_error_rejected_before_io ⟨[104], [49], [100], [117], [112]⟩
    ⟨"Deposit", ⟨2024, 2, 1⟩, ⟨2024, 1, 31⟩, true⟩
    ⟨none, .ok ⟨[['a']], [[['x']]]⟩⟩ "data_spool.b2c_collections"
    (by decide) (by decide)

/-- C4 theorem: a friendly name outside the fixed mapping makes the run fail
at the dictionary lookup (the `KeyError` of line 85) before anything else —
in particular before any connection is opened or query issued. -/
theorem unknown_selection_rejected_before_io (db : DBParams) (ui : UIInput)
    (w : World) (hsel : lookupTable ui.selection = none) :
    main (some db) ui w = [.keyErrorCrash ui.selection] ∧
    ∀ e ∈ main (some db) ui w, isOpenEvt e = false ∧ isQueryEvt e = false := by
  have hmain : main (some db) ui w = [.keyErrorCrash ui.selection] := by
    unfold main
    rw [hsel]
  refine ⟨hmain, ?_⟩
  intro e he
  rw [hmain] at he
  rcases List.mem_singleton.mp he with rfl
  exact ⟨rfl, rfl⟩

/-- Witness for the C4 theorem: the unmapped name `Ledger` crashes the run
before any I/O. -/
theorem unknown_selection_rejected_before_io_witness :
    main (some ⟨[104], [49], [100], [117], [112]⟩)
        ⟨"Ledger", ⟨2024, 1, 1⟩, ⟨2024, 1, 31⟩, true⟩
        ⟨none, .ok ⟨[['a']], [[['x']]]⟩⟩ =
      [.keyErrorCrash "Ledger"] ∧
    ∀ e ∈ main (some ⟨[104], [49], [100], [117], [112]⟩)
        ⟨"Ledger", ⟨2024, 1, 1⟩, ⟨2024, 1, 31⟩, true⟩
        ⟨none, .ok ⟨[['a']], [[['x']]]⟩⟩,
      isOpenEvt e = false ∧ isQueryEvt e = false :=
  unknown_selection_rejected_before_io ⟨[104], [49], [100], [117], [112]⟩
    ⟨"Ledger", ⟨2024, 1, 1⟩, ⟨2024, 1, 31⟩, true⟩
    ⟨none, .ok ⟨[['a']], [[['x']]]⟩⟩ (by decide)

/-! ## C2: failures are swallowed into a `None` return -/

/-- C2 counterexample: the claim that a failing fetch never hands its caller
a null result is false — with a refused connection the call returns `None`. -/
theorem fetch_failure_swallowed_counterexample : ¬ claimFailureNotSwallowed := by
  intro h
  exact h "2024-01-01" "2024-01-31" "data_spool.b2c_collections"
    ⟨[104], [49], [100], [117], [112]⟩
    ⟨some "connection refused", .ok ⟨[], []⟩⟩ 50000
    (Or.inl (by simp)) rfl

/-- C2 amended theorem: on any connectivity or query failure the fetch shows
a UI error message carrying the underlying cause and returns `None` to its
caller — never partial data (chunks already received are discarded), but
also never a raised, caller-inspectable error value. -/
theorem fetch_failure_reports_cause_returns_none (startS endS tableName :
    String) (db : DBParams) (w : World) (c : Nat) (h : fetchFails w) :
    (fetch_data_in_chunks startS endS tableName db w c).1 = none ∧
    ∃ msg, Event.stError ("Error fetching data: " ++ msg) ∈
      (fetch_data_in_chunks startS endS tableName db w c).2 := by
  unfold fetch_data_in_chunks
  cases hc : w.connect with
  | some msg => exact ⟨rfl, msg, by simp⟩
  | none =>
    cases hq : w.queryResult with
    | ok t =>
      exfalso
      rcases h with h1 | ⟨t2, k, m, h2⟩
      · exact h1 hc
      · rw [hq] at h2
        exact QueryOutcome.noConfusion h2
    | failAfter t k msg => exact ⟨rfl, msg, by simp⟩

/-- Witness for the amended C2 theorem: a query that dies after two chunks
have already arrived still yields `None` plus the error message. -/
theorem fetch_failure_reports_cause_returns_none_witness :
    (fetch_data_in_chunks "2024-01-01" "2024-01-31"
        "data_spool.b2c_collections" ⟨[104], [49], [100], [117], [112]⟩
        ⟨none, .failAfter ⟨[['a']], [[['1']], [['2']], [['3']]]⟩ 2
          "server closed the connection"⟩ 1).1 = none ∧
    ∃ msg, Event.stError ("Error fetching data: " ++ msg) ∈
      (fetch_data_in_chunks "2024-01-01" "2024-01-31"
        "data_spool.b2c_collections" ⟨[104], [49], [100], [117], [112]⟩
        ⟨none, .failAfter ⟨[['a']], [[['1']], [['2']], [['3']]]⟩ 2
          "server closed the connection"⟩ 1).2 :=
  fetch_failure_reports_cause_returns_none "2024-01-01" "2024-01-31"
    "data_spool.b2c_collections" ⟨[104], [49], [100], [117], [112]⟩
    ⟨none, .failAfter ⟨[['a']], [[['1']], [['2']], [['3']]]⟩ 2
      "server closed the connection"⟩ 1
    (Or.inr ⟨⟨[['a']], [[['1']], [['2']], [['3']]]⟩, 2,
      "server closed the connection", rfl⟩)

/-! ## C3: the connection is leaked on a query failure -/

/-- C3 counterexample: the claim that every fetch closes as many connections
as it opens fails on a world whose query raises — the `except` handler
returns without closing, so one open is matched by zero closes. -/
theorem fetch_connection_leak_counterexample : ¬ claimConnAlwaysReleased := by
  intro h
  obtain ⟨h1, h2⟩ := h "2024-01-01" "2024-01-31" "data_spool.b2c_collections"
    ⟨[104], [49], [100], [117], [112]⟩
    ⟨none, .failAfter ⟨[['a']], []⟩ 0 "boom"⟩ 50000
  rw [h1] at h2
  exact absurd h2 (by decide)

/-- C3 amended theorem: a fetch opens at most one connection; the connection
is closed when the call returns a frame (success, including an empty result);
when connecting itself fails nothing was opened; but when the query fails
after the connection was opened, the call returns with the connection still
open — a leak on that exit path. -/
theorem fetch_connection_accounting (startS endS tableName : String)
    (db : DBParams) (w : World) (c : Nat) :
    (fetch_data_in_chunks startS endS tableName db w c).2.countP isOpenEvt
        ≤ 1 ∧
    ((fetch_data_in_chunks startS endS tableName db w c).1 ≠ none →
      (fetch_data_in_chunks startS endS tableName db w c).2.countP isOpenEvt
          = 1 ∧
      (fetch_data_in_chunks startS endS tableName db w c).2.countP isCloseEvt
          = 1) ∧
    (w.connect ≠ none →
      (fetch_data_in_chunks startS endS tableName db w c).2.countP isOpenEvt
          = 0 ∧
      (fetch_data_in_chunks startS endS tableName db w c).2.countP isCloseEvt
          = 0) ∧
    (w.connect = none →
      (∃ t k msg, w.queryResult = .failAfter t k msg) →
      (fetch_data_in_chunks startS endS tableName db w c).2.countP isOpenEvt
          = 1 ∧
      (fetch_data_in_chunks startS endS tableName db w c).2.countP isCloseEvt
          = 0) := by
  unfold fetch_data_in_chunks
  cases hc : w.connect with
  | some msg =>
    refine ⟨by simp [List.countP_cons, List.countP_nil, isOpenEvt, isCloseEvt], ?_, ?_, ?_⟩
    · intro hne
      exact absurd rfl hne
    · intro _
      constructor <;> simp [List.countP_cons, List.countP_nil, isOpenEvt, isCloseEvt]
    · intro heq
      exact absurd heq (by simp)
  | none =>
    cases hq : w.queryResult with
    | ok t =>
      refine ⟨?_, ?_, ?_, ?_⟩
      · simp [List.countP_cons, List.countP_nil, isOpenEvt, isCloseEvt]
      · intro _
        constructor <;> simp [List.countP_cons, List.countP_nil, isOpenEvt, isCloseEvt]
      · intro hne
        exact absurd rfl hne
      · intro _ hex
        rcases hex with ⟨t2, k2, m2, h2⟩
        exact QueryOutcome.noConfusion h2
    | failAfter t k msg =>
      refine ⟨?_, ?_, ?_, ?_⟩
      · simp [List.countP_cons, List.countP_nil, isOpenEvt, isCloseEvt]
      · intro hne
        exact absurd rfl hne
      · intro hne
        exact absurd rfl hne
      · intro _ _
        constructor <;> simp [List.countP_cons, List.countP_nil, isOpenEvt, isCloseEvt]

/-- Witness for the amended C3 theorem, at the leaking path: one open, zero
closes after a failing query. -/
theorem fetch_connection_accounting_witness :
    (fetch_data_in_chunks "2024-01-01" "2024-01-31"
        "data_spool.b2c_collections" ⟨[104], [49], [100], [117], [112]⟩
        ⟨none, .failAfter ⟨[['a']], []⟩ 0 "boom"⟩ 50000).2.countP isOpenEvt
        = 1 ∧
    (fetch_data_in_chunks "2024-01-01" "2024-01-31"
        "data_spool.b2c_collections" ⟨[104], [49], [100], [117], [112]⟩
        ⟨none, .failAfter ⟨[['a']], []⟩ 0 "boom"⟩ 50000).2.countP isCloseEvt
        = 0 :=
  (fetch_connection_accounting "2024-01-01" "2024-01-31"
    "data_spool.b2c_collections" ⟨[104], [49], [100], [117], [112]⟩
    ⟨none, .failAfter ⟨[['a']], []⟩ 0 "boom"⟩ 50000).2.2.2 rfl
    ⟨⟨[['a']], []⟩, 0, "boom", rfl⟩

/-! ## C6: the CSV export is not gzip-compressed; the text round-trips -/

/-- C6 counterexample: the export buffer of a one-column table starts with
the UTF-8 bytes of the header text, not with the gzip magic — no
gzip-compatible container is ever produced (line 117 only calls
`to_csv(...).encode('utf-8')`). -/
theorem csv_export_not_gzipped_counterexample : ¬ claimCsvExportGzipped := by
  intro h
  have := h ⟨[['a']], []⟩ (by decide)
  exact absurd this (by decide)

/-- C6 amended theorem: the CSV export is the plain UTF-8 encoding of the
comma-separated text (header row plus one line per record, no index column),
with no compression applied; parsing that text directly — without any
decompression — recovers the table row-for-row and column-for-column under
each value's textual representation. -/
theorem csv_export_plain_text_roundtrip (t : Table) (hc : t.cols ≠ [])
    (hr : ∀ r ∈ t.rows, r ≠ []) :
    csvExportBytes t = utf8Encode (csvText t) ∧
    parseCSV (csvText t) = t.cols :: t.rows :=
  ⟨rfl, parseCSV_csvText t hc hr⟩

/-- Witness for the amended C6 theorem on a table whose values exercise the
quoting rules (an embedded comma and an embedded quote). -/
theorem csv_export_plain_text_roundtrip_witness :
    csvExportBytes ⟨[['a'], ['b']],
        [[['1'], ['v', ',', 'w']], [['2'], ['q', '\"', 'r']]]⟩ =
      utf8Encode (csvText ⟨[['a'], ['b']],
        [[['1'], ['v', ',', 'w']], [['2'], ['q', '\"', 'r']]]⟩) ∧
    parseCSV (csvText ⟨[['a'], ['b']],
        [[['1'], ['v', ',', 'w']], [['2'], ['q', '\"', 'r']]]⟩) =
      [[['a'], ['b']], [['1'], ['v', ',', 'w']], [['2'], ['q', '\"', 'r']]] :=
  csv_export_plain_text_roundtrip
    ⟨[['a'], ['b']], [[['1'], ['v', ',', 'w']], [['2'], ['q', '\"', 'r']]]⟩
    (by decide) (by decide)

/-! ## C7: the spreadsheet layout -/

/-- C7 theorem: the spreadsheet export is a single sheet named `Data` whose
first row is the column headers in table order and whose remaining rows are
the records, one each, with no extra row-index column (every grid row has
exactly the table's column count). -/
theorem to_excel_single_sheet_layout (t : Table)
    (h : ∀ r ∈ t.rows, r.length = t.cols.length) :
    (to_excel t).sheets = [⟨"Data", t.cols :: t.rows⟩] ∧
    ∀ g ∈ (t.cols :: t.rows), g.length = t.cols.length := by
  constructor
  · simp [to_excel, dfToGrid]
  · intro g hg
    rcases List.mem_cons.mp hg with h1 | h1
    · simp [h1]
    · exact h g h1

/-- Witness for the C7 theorem on a concrete two-column table. -/
theorem to_excel_single_sheet_layout_witness :
    (to_excel ⟨[['a'], ['b']], [[['1'], ['2']]]⟩).sheets =
      [⟨"Data", [[['a'], ['b']], [['1'], ['2']]]⟩] ∧
    ∀ g ∈ ([['a'], ['b']] :: [[['1'], ['2']]]),
      g.length = ([['a'], ['b']] : List Field).length :=
  to_excel_single_sheet_layout ⟨[['a'], ['b']], [[['1'], ['2']]]⟩ (by decide)

/-! ## C8: an empty result produces a warning and no exports at all -/

/-- C8 counterexample: on a concrete run whose query matches zero rows, the
app emits the no-data warning and never offers a download — the claimed
header-only exports do not happen. -/
theorem empty_fetch_no_export_counterexample : ¬ claimEmptyFetchStillExports := by
  intro h
  have := h ⟨[104], [49], [100], [117], [112]⟩
    ⟨"Deposit", ⟨2024, 1, 1⟩, ⟨2024, 1, 31⟩, true⟩
    ⟨none, .ok ⟨[['t']], []⟩⟩ "data_spool.b2c_collections" [['t']]
    (by decide) (by decide) rfl rfl rfl
  exact absurd this (by decide)

/-- C8 amended theorem: a fetch matching zero rows ends in the no-data
warning with no download offered (the empty frame fails the
`data is not None and not data.empty` guard); the serializers themselves,
however, do succeed on a zero-row table, producing a header-only CSV text
and a header-only `Data` sheet — the pipeline just never invokes them. -/
theorem empty_fetch_warns_and_serializers_header_only :
    (∀ (db : DBParams) (ui : UIInput) (w : World) (tableName : String)
      (cols : List Field),
      lookupTable ui.selection = some tableName →
      dateLt ui.endDate ui.startDate = false →
      ui.fetchClicked = true →
      w.connect = none →
      w.queryResult = .ok ⟨cols, []⟩ →
      main (some db) ui w =
        [.stInfo ("Fetching data from table: " ++ ui.selection ++ "..."),
         .connOpened (buildUrl db),
         .queryIssued tableName ui.startDate.fmt ui.endDate.fmt,
         .connClosed,
         .stWarning "No data found for the specified date range or table!"]) ∧
    (∀ cols : List Field, cols ≠ [] →
      parseCSV (csvText ⟨cols, []⟩) = [cols] ∧
      (to_excel ⟨cols, []⟩).sheets = [⟨"Data", [cols]⟩]) := by
  constructor
  · intro db ui w tableName cols hsel hlt hclick hconn hq
    unfold main
    rw [hsel]
    simp only [hlt, Bool.false_eq_true, if_false, hclick, if_true]
    unfold fetch_data_in_chunks
    rw [hconn, hq]
    have := assembleChunks_eq 50000 (by omega) ⟨cols, []⟩
    simp only [List.isEmpty_nil, if_true] at this
    simp [this, dfNonEmpty, emptyDF]
  · intro cols hcols
    constructor
    · have := parseCSV_csvText ⟨cols, []⟩ hcols (by intro r hr; simp at hr)
      simpa using this
    · simp [to_excel, dfToGrid]

/-- Witness for the amended C8 theorem: the concrete empty-result run and
the header-only serializer outputs for the one-column schema. -/
theorem empty_fetch_warns_and_serializers_header_only_witness :
    main (some ⟨[104], [49], [100], [117], [112]⟩)
        ⟨"Deposit", ⟨2024, 1, 1⟩, ⟨2024, 1, 31⟩, true⟩
        ⟨none, .ok ⟨[['t']], []⟩⟩ =
      [.stInfo "Fetching data from table: Deposit...",
       .connOpened (buildUrl ⟨[104], [49], [100], [117], [112]⟩),
       .queryIssued "data_spool.b2c_collections" (Date.fmt ⟨2024, 1, 1⟩)
         (Date.fmt ⟨2024, 1, 31⟩),
       .connClosed,
       .stWarning "No data found for the specified date range or table!"] ∧
    (parseCSV (csvText ⟨[['t']], []⟩) = [[['t']]] ∧
      (to_excel ⟨[['t']], []⟩).sheets = [⟨"Data", [[['t']]]⟩]) :=
  ⟨empty_fetch_warns_and_serializers_header_only.1
      ⟨[104], [49], [100], [117], [112]⟩
      ⟨"Deposit", ⟨2024, 1, 1⟩, ⟨2024, 1, 31⟩, true⟩
      ⟨none, .ok ⟨[['t']], []⟩⟩ "data_spool.b2c_collections" [['t']]
      (by decide) (by decide) rfl rfl rfl,
    empty_fetch_warns_and_serializers_header_only.2 [['t']] (by decide)⟩

/-! ## C9: the suggested download filenames -/

/-- C9 counterexample: on a concrete successful export run the suggested
names are `deposit_data_export.csv` / `.xlsx`; no download carries the
spec's dated `Deposit_2024-01-01_to_2024-01-31.csv.gz` / `.xlsx` names. -/
theorem spec_filenames_counterexample : ¬ claimSpecFilenames := by
  intro h
  have := h ⟨[104], [49], [100], [117], [112]⟩
    ⟨"Deposit", ⟨2024, 1, 1⟩, ⟨2024, 1, 31⟩, true⟩
    ⟨none, .ok ⟨[['t']], [[['v']]]⟩⟩ "data_spool.b2c_collections"
    ⟨[['t']], [[['v']]]⟩ (by decide) (by decide) rfl rfl rfl
    (by decide) (by decide)
  exact absurd this (by decide)

/-- C9 amended theorem: every successful export run offers the CSV download
as `{selection lowercased, spaces to underscores}_data_export.csv` and the
spreadsheet download as the matching `..._data_export.xlsx` — no dates in
the names, no `.gz` suffix, and no compression. -/
theorem code_download_filenames (db : DBParams) (ui : UIInput) (w : World)
    (tableName : String) (t : Table)
    (hsel : lookupTable ui.selection = some tableName)
    (hlt : dateLt ui.endDate ui.startDate = false)
    (hclick : ui.fetchClicked = true)
    (hconn : w.connect = none)
    (hq : w.queryResult = .ok t)
    (hrows : t.rows ≠ []) (hcols : t.cols ≠ []) :
    Event.downloadCsv (exportFileBase ui.selection ++ "_data_export.csv")
        "text/csv" (csvExportBytes t) ∈ main (some db) ui w ∧
    Event.downloadExcel (exportFileBase ui.selection ++ "_data_export.xlsx")
        "application/vnd.openxmlformats-officedocument.spreadsheetml.sheet"
        (to_excel t) ∈ main (some db) ui w := by
  have hmain : main (some db) ui w =
      [.stInfo ("Fetching data from table: " ++ ui.selection ++ "..."),
       .connOpened (buildUrl db),
       .queryIssued tableName ui.startDate.fmt ui.endDate.fmt,
       .connClosed,
       .stSuccess "Data fetched successfully!",
       .downloadCsv (exportFileBase ui.selection ++ "_data_export.csv")
         "text/csv" (csvExportBytes t),
       .downloadExcel (exportFileBase ui.selection ++ "_data_export.xlsx")
         "application/vnd.openxmlformats-officedocument.spreadsheetml.sheet"
         (to_excel t)] := by
    unfold main
    rw [hsel]
    simp only [hlt, Bool.false_eq_true, if_false, hclick, if_true]
    unfold fetch_data_in_chunks
    rw [hconn, hq]
    have hre : t.rows.isEmpty = false := by simpa using hrows
    have ha := assembleChunks_eq 50000 (by omega) t
    rw [hre] at ha
    simp only [Bool.false_eq_true, if_false] at ha
    simp [ha, dfNonEmpty, List.isEmpty_iff, hrows, hcols]
  rw [hmain]
  constructor <;> simp

/-- Witness for the amended C9 theorem at a concrete one-row run for the
selection `OKX Data` (exercising the space and the lowercasing). -/
theorem code_download_filenames_witness :
    Event.downloadCsv (exportFileBase "OKX Data" ++ "_data_export.csv")
        "text/csv" (csvExportBytes ⟨[['t']], [[['v']]]⟩) ∈
      main (some ⟨[104], [49], [100], [117], [112]⟩)
        ⟨"OKX Data", ⟨2024, 1, 1⟩, ⟨2024, 1, 31⟩, true⟩
        ⟨none, .ok ⟨[['t']], [[['v']]]⟩⟩ ∧
    Event.downloadExcel (exportFileBase "OKX Data" ++ "_data_export.xlsx")
        "application/vnd.openxmlformats-officedocument.spreadsheetml.sheet"
        (to_excel ⟨[['t']], [[['v']]]⟩) ∈
      main (some ⟨[104], [49], [100], [117], [112]⟩)
        ⟨"OKX Data", ⟨2024, 1, 1⟩, ⟨2024, 1, 31⟩, true⟩
        ⟨none, .ok ⟨[['t']], [[['v']]]⟩⟩ :=
  code_download_filenames ⟨[104], [49], [100], [117], [112]⟩
    ⟨"OKX Data", ⟨2024, 1, 1⟩, ⟨2024, 1, 31⟩, true⟩
    ⟨none, .ok ⟨[['t']], [[['v']]]⟩⟩ "data_spool.okx_data"
    ⟨[['t']], [[['v']]]⟩ (by decide) (by decide) rfl rfl rfl
    (by decide) (by decide)

/-! ## C10: percent-encoding of the password in the connection URL -/

/-- A safe byte is none of the URL delimiters or the escape lead. -/
theorem isAlwaysSafe_ne (b : Nat) (h : isAlwaysSafe b = true) :
    b ≠ 58 ∧ b ≠ 47 ∧ b ≠ 64 ∧ b ≠ 37 := by
  simp only [isAlwaysSafe, decide_eq_true_eq] at h
  omega

/-- A hex digit emitted by `hexDigit` is recognized by `isHexDigit`. -/
theorem isHexDigit_hexDigit (n : Nat) (h : n < 16) :
    isHexDigit (hexDigit n) = true := by
  simp only [hexDigit, isHexDigit, decide_eq_true_eq]
  split_ifs <;> omega

/-- `hexVal` inverts `hexDigit` below 16. -/
theorem hexVal_hexDigit (n : Nat) (h : n < 16) : hexVal (hexDigit n) = n := by
  simp only [hexDigit, hexVal]
  split_ifs <;> omega

/-- `hexDigit` output is never the `@` delimiter. -/
theorem hexDigit_ne_64 (n : Nat) (h : n < 16) : hexDigit n ≠ 64 := by
  simp only [hexDigit]
  split_ifs <;> omega

/-- No byte the per-byte encoder emits is the `@` delimiter. -/
theorem quotePlusByte_no_at (b : Nat) (hb : b < 256) :
    ∀ x ∈ quotePlusByte b, x ≠ 64 := by
  intro x hx
  unfold quotePlusByte at hx
  by_cases h32 : b = 32
  · rw [if_pos h32] at hx
    rcases List.mem_singleton.mp hx with rfl
    omega
  · rw [if_neg h32] at hx
    by_cases hsafe : isAlwaysSafe b = true
    · rw [if_pos hsafe] at hx
      rcases List.mem_singleton.mp hx with rfl
      exact (isAlwaysSafe_ne _ hsafe).2.2.1
    · rw [if_neg hsafe] at hx
      rcases List.mem_cons.mp hx with rfl | hx
      · omega
      rcases List.mem_cons.mp hx with rfl | hx
      · exact hexDigit_ne_64 _ (by omega)
      rcases List.mem_cons.mp hx with rfl | hx
      · exact hexDigit_ne_64 _ (by omega)
      · simp at hx

/-- No byte of an encoded password is the `@` delimiter, so the URL parser
can find the end of the password region. -/
theorem quotePlus_no_at (pw : Bytes) (hlt : ∀ b ∈ pw, b < 256) :
    ∀ x ∈ quotePlus pw, x ≠ 64 := by
  induction pw with
  | nil => intro x hx; simp [quotePlus] at hx
  | cons b bs ih =>
    intro x hx
    have hb : b < 256 := hlt b (List.mem_cons_self b bs)
    have hbs : ∀ y ∈ bs, y < 256 := fun y hy =>
      hlt y (List.mem_cons_of_mem b hy)
    rcases List.mem_append.mp hx with hx | hx
    · exact quotePlusByte_no_at b hb x hx
    · exact ih hbs x hx

/-- Percent-decoding passes a byte that is not the escape lead through. -/
theorem unquote_cons_ne37 (b : Nat) (l : Bytes) (hb : b ≠ 37) :
    unquote (b :: l) = b :: unquote l := by
  cases l with
  | nil => rfl
  | cons c cs =>
    cases cs with
    | nil => rfl
    | cons d ds => simp [unquote, hb]

/-- Percent-decoding is the identity on escape-free byte strings. -/
theorem unquote_no_percent (l : Bytes) (h : ∀ b ∈ l, b ≠ 37) :
    unquote l = l := by
  induction l with
  | nil => rfl
  | cons b bs ih =>
    rw [unquote_cons_ne37 b bs (h b (List.mem_cons_self b bs))]
    rw [ih (fun x hx => h x (List.mem_cons_of_mem b hx))]

/-- Percent-decoding decodes a valid escape sequence. -/
theorem unquote_escape (h1 h2 : Nat) (rest : Bytes)
    (hh1 : isHexDigit h1 = true) (hh2 : isHexDigit h2 = true) :
    unquote (37 :: h1 :: h2 :: rest) =
      (hexVal h1 * 16 + hexVal h2) :: unquote rest := by
  simp [unquote, hh1, hh2]

/-- Percent-decoding undoes `quote_plus` except on the space byte, which
`quote_plus` turns into `+` (43) and percent-decoding leaves as `+`. -/
theorem unquote_quotePlus (pw : Bytes) (hlt : ∀ b ∈ pw, b < 256)
    (hsp : 32 ∉ pw) : unquote (quotePlus pw) = pw := by
  induction pw with
  | nil => rfl
  | cons b bs ih =>
    have hb : b < 256 := hlt b (List.mem_cons_self b bs)
    have hbs : ∀ y ∈ bs, y < 256 := fun y hy =>
      hlt y (List.mem_cons_of_mem b hy)
    have hbs32 : 32 ∉ bs := fun hmem => hsp (List.mem_cons_of_mem b hmem)
    have hb32 : b ≠ 32 := fun heq => hsp (heq ▸ List.mem_cons_self b bs)
    by_cases hsafe : isAlwaysSafe b = true
    · have hb37 : b ≠ 37 := (isAlwaysSafe_ne b hsafe).2.2.2
      simp only [quotePlus, quotePlusByte, hb32, if_false, hsafe, if_true,
        List.singleton_append]
      rw [unquote_cons_ne37 b _ hb37, ih hbs hbs32]
    · have hhi : isHexDigit (hexDigit (b / 16)) = true :=
        isHexDigit_hexDigit _ (by omega)
      have hlo : isHexDigit (hexDigit (b % 16)) = true :=
        isHexDigit_hexDigit _ (by omega)
      simp only [quotePlus, quotePlusByte, hb32, if_false, hsafe,
        Bool.false_eq_true, List.cons_append, List.nil_append]
      rw [unquote_escape _ _ _ hhi hlo]
      rw [hexVal_hexDigit _ (by omega), hexVal_hexDigit _ (by omega)]
      rw [ih hbs hbs32]
      have hdm : b / 16 * 16 + b % 16 = b := by omega
      rw [hdm]

/-- Dropping a literal prefix from itself followed by anything succeeds. -/
theorem dropLiteral_self (p : Bytes) : ∀ l : Bytes,
    dropLiteral p (p ++ l) = some l := by
  induction p with
  | nil => intro l; rfl
  | cons b bs ih => intro l; simp [dropLiteral, ih l]

/-- `takeWhile` over a region whose bytes all satisfy the predicate,
terminated by a failing byte, returns exactly the region. -/
theorem takeWhile_region (p : Nat → Bool) :
    ∀ (xs : Bytes) (y : Nat) (rest : Bytes), (∀ x ∈ xs, p x = true) →
      p y = false → (xs ++ y :: rest).takeWhile p = xs := by
  intro xs
  induction xs with
  | nil =>
    intro y rest _ hy
    simp [List.takeWhile_cons, hy]
  | cons x xs ih =>
    intro y rest hall hy
    have hx : p x = true := hall x (List.mem_cons_self x xs)
    simp [List.takeWhile_cons, hx,
      ih y rest (fun z hz => hall z (List.mem_cons_of_mem x hz)) hy]

/-- Dropping the length of the left part of an append leaves the right. -/
theorem drop_append_length (xs : Bytes) : ∀ ys : Bytes,
    (xs ++ ys).drop xs.length = ys := by
  induction xs with
  | nil => intro ys; rfl
  | cons x xs ih => intro ys; simp [ih ys]

/-- C10 counterexample: the claim fails for a password containing a space —
`quote_plus` encodes the space as `+` (43), URL percent-decoding leaves the
`+` alone, so the parsed password is `+`, not the supplied space. -/
theorem url_password_space_counterexample : ¬ claimUrlComponentsRecovered := by
  intro h
  have := h ⟨[104], [49], [100], [117], [32]⟩ (by decide) (by decide)
    (by decide) (by decide) (by decide)
  exact absurd this (by decide)

/-- C10 amended theorem: for every parameter bundle whose user, host and
port are free of the URL delimiters and escape lead, whose database is free
of the escape lead, and whose password consists of bytes below 256 with NO
space byte, the parsed user, password, host, port and database of the
constructed URL equal the supplied parameters — the password may freely
contain reserved bytes such as `@`, `:` or `/`. -/
theorem url_components_roundtrip (p : DBParams)
    (hu : UrlPlain p.user) (hh : UrlPlain p.host) (hp : UrlPlain p.port)
    (hd : ∀ b ∈ p.database, b ≠ 37)
    (hpw : ∀ b ∈ p.password, b < 256) (hsp : 32 ∉ p.password) :
    parseUrl (buildUrl p) =
      some (p.user, p.password, p.host, p.port, p.database) := by
  have plainPred : ∀ (l : Bytes), UrlPlain l →
      ∀ x ∈ l, (x != 58 && x != 47) = true := by
    intro l hl x hx
    obtain ⟨h1, h2, _, _⟩ := hl x hx
    simp [h1, h2]
  have huTake := takeWhile_region (fun b => b != 58 && b != 47) p.user 58
    (quotePlus p.password ++ 64 :: (p.host ++ 58 :: (p.port ++
      47 :: p.database))) (plainPred p.user hu) (by decide)
  have huDrop := drop_append_length p.user
    (58 :: (quotePlus p.password ++ 64 :: (p.host ++ 58 :: (p.port ++
      47 :: p.database))))
  have hpwTake := takeWhile_region (fun b => b != 64) (quotePlus p.password)
    64 (p.host ++ 58 :: (p.port ++ 47 :: p.database))
    (fun x hx => by simp [quotePlus_no_at p.password hpw x hx]) (by decide)
  have hpwDrop := drop_append_length (quotePlus p.password)
    (64 :: (p.host ++ 58 :: (p.port ++ 47 :: p.database)))
  have hhTake := takeWhile_region (fun b => b != 58 && b != 47) p.host 58
    (p.port ++ 47 :: p.database) (plainPred p.host hh) (by decide)
  have hhDrop := drop_append_length p.host (58 :: (p.port ++
    47 :: p.database))
  have hpTake := takeWhile_region (fun b => b != 47) p.port 47 p.database
    (fun x hx => by simp [(hp x hx).2.1]) (by decide)
  have hpDrop := drop_append_length p.port (47 :: p.database)
  have hqu := unquote_no_percent p.user (fun b hb => (hu b hb).2.2.2)
  have hqpw := unquote_quotePlus p.password hpw hsp
  have hqh := unquote_no_percent p.host (fun b hb => (hh b hb).2.2.2)
  have hqp := unquote_no_percent p.port (fun b hb => (hp b hb).2.2.2)
  have hqd := unquote_no_percent p.database hd
  unfold buildUrl parseUrl
  simp only [List.cons_append, List.append_assoc]
  simp only [dropLiteral_self, huTake, huDrop, hpwTake, hpwDrop, hhTake,
    hhDrop, hpTake, hpDrop, hqu, hqpw, hqh, hqp, hqd]

/-- Witness for the amended C10 theorem: a password consisting of the three
reserved bytes `@` `:` `/` round-trips exactly. -/
theorem url_components_roundtrip_witness :
    parseUrl (buildUrl ⟨[104], [49], [100], [117], [64, 58, 47]⟩) =
      some ([117], [64, 58, 47], [104], [49], [100]) :=
  url_components_roundtrip ⟨[104], [49], [100], [117], [64, 58, 47]⟩
    (by decide) (by decide) (by decide) (by decide) (by decide) (by decide)

end DataSpool
